import Mathlib

/-!
Shallow embedding of the file-based configuration store
(`src/utils/configManager.ts`) and of the retry helper
(`src/utils/timeout.ts`) of the usarral/typescript-cli-template repository.

The configuration directory is modelled as an association list from file
paths, relative to the configuration directory and normalized the way
Node's `path.join` normalizes them, to parsed JSON contents.  Every file
the manager ever writes is a JSON object with a mandatory `name` field
and an optional `description` field, so file contents are modelled by the
structure `ConfigFile`.  The active-pointer file is the entry with key
`"current.json"`; the constructor creates it holding an empty name.
Because `getConfigFilePath` feeds the record name through `path.join`,
distinct names can denote the same file (`"./current"` aliases
`current.json`); the embedding keeps that aliasing by normalizing keys.
I/O failures are outside the model: every read and write succeeds,
matching the claims' "absent I/O failures" reading.
-/

/-- Parsed content of a JSON file in the configuration directory: a `name`
field and an optional `description` field, the shape checked by
`AppConfigSchema` (configManager.ts lines 19-27).  The active-pointer file
`current.json` holds such an object with no description. -/
structure ConfigFile where
  name : String
  description : Option String
  deriving DecidableEq, Repr

/-- State of the configuration directory: association list from the
normalized file path relative to the configuration directory to parsed
content.  The pointer file appears under the key `"current.json"`. -/
structure Store where
  files : List (String × ConfigFile)
  deriving DecidableEq, Repr

/-- Looks a normalized path up in the directory; models `existsSync` plus
`readFileSync` on that file. -/
def lookupKey (l : List (String × ConfigFile)) (k : String) : Option ConfigFile :=
  match l with
  | [] => none
  | (k', c') :: rest => if k' = k then some c' else lookupKey rest k

/-- Replaces the content stored under a normalized path, or appends the
pair when the path is absent; models `writeFileSync` on that file. -/
def updateAssoc (l : List (String × ConfigFile)) (k : String) (c : ConfigFile) :
    List (String × ConfigFile) :=
  match l with
  | [] => [(k, c)]
  | (k', c') :: rest =>
    if k' = k then (k, c) :: rest else (k', c') :: updateAssoc rest k c

/-- Removes every entry stored under a normalized path; models
`unlinkSync` on that file (on a real file system the path occurs at most
once). -/
def removeKey (l : List (String × ConfigFile)) (k : String) :
    List (String × ConfigFile) :=
  match l with
  | [] => []
  | (k', c') :: rest =>
    if k' = k then removeKey rest k else (k', c') :: removeKey rest k

/-- Writes a file into the store. -/
def writeFile (s : Store) (k : String) (c : ConfigFile) : Store :=
  ⟨updateAssoc s.files k c⟩

/-- Deletes a file from the store. -/
def removeFile (s : Store) (k : String) : Store :=
  ⟨removeKey s.files k⟩

/-- Splits a character list into path segments at `'/'` separators,
accumulating the current segment's characters in reverse. -/
def segsAux (cs : List Char) (cur : List Char) : List String :=
  match cs with
  | [] => [String.mk cur.reverse]
  | c :: rest =>
    if c = '/' then String.mk cur.reverse :: segsAux rest []
    else segsAux rest (c :: cur)

/-- Splits a POSIX path into its `'/'`-separated segments. -/
def splitSegs (p : String) : List String :=
  segsAux p.toList []

/-- Normalization pass of Node's `path.join` on the segments of a path
relative to the (absolute) configuration directory: empty and `"."`
segments are dropped, and a `".."` segment pops the preceding real
segment when there is one — otherwise it climbs out of the directory and
stays in the result. -/
def normSegs (stack : List String) (segs : List String) : List String :=
  match segs with
  | [] => stack.reverse
  | "" :: rest => normSegs stack rest
  | "." :: rest => normSegs stack rest
  | ".." :: rest =>
    match stack with
    | [] => normSegs [".."] rest
    | ".." :: _ => normSegs (".." :: stack) rest
    | _ :: tl => normSegs tl rest
  | seg :: rest => normSegs (seg :: stack) rest

/-- getConfigFilePath (configManager.ts lines 130-132):
`join(this.configDir, name + ".json")`, modelled relative to `configDir`.
Node's `path.join` normalizes the joined path, so distinct names can
denote the same file: `"./current"` and `"x/../current"` both map to
`"current.json"`, the pointer file's path. -/
def getConfigFilePath (name : String) : String :=
  String.intercalate "/" (normSegs [] (splitSegs (name ++ ".json")))

/-- Store produced by the `FileConfigManager` constructor on a fresh
directory: `ensureCurrentConfigFileExists` writes `current.json` holding
an empty name (configManager.ts lines 123-128). -/
def freshStore : Store :=
  ⟨[("current.json", ⟨"", none⟩)]⟩

/-- Zod validation `AppConfigSchema.safeParse` reduced to the checks the
schema performs: `name` is a string of length at least 1 and at most 50;
`description`, when present, is a string (always true in the model).
Source: configManager.ts lines 19-27. -/
def appConfigSchemaOk (c : ConfigFile) : Bool :=
  1 ≤ c.name.length && c.name.length ≤ 50

/-- configExists (configManager.ts lines 138-140): `existsSync` on
`getConfigFilePath name`. -/
def configExists (s : Store) (name : String) : Bool :=
  (lookupKey s.files (getConfigFilePath name)).isSome

/-- getConfig (configManager.ts lines 153-179): reads the file at
`getConfigFilePath name`, returns `null` when the file is missing or
fails schema validation, and otherwise returns the parsed object
itself. -/
def getConfig (s : Store) (name : String) : Option ConfigFile :=
  match lookupKey s.files (getConfigFilePath name) with
  | none => none
  | some c => if appConfigSchemaOk c then some c else none

/-- saveConfig (configManager.ts lines 181-200): validates the record with
`AppConfigSchema.safeParse`; on failure returns `false` without writing,
otherwise writes the record to `getConfigFilePath record.name` and
returns `true`.  The pair is the returned boolean and the store after the
call. -/
def saveConfig (s : Store) (c : ConfigFile) : Bool × Store :=
  if appConfigSchemaOk c then (true, writeFile s (getConfigFilePath c.name) c)
  else (false, s)

/-- getCurrentConfig (configManager.ts lines 227-236): reads
`current.json`; a read failure (missing file) yields `null`, and an empty
`name` field is mapped to `null` by `current.name || null`. -/
def getCurrentConfig (s : Store) : Option String :=
  match lookupKey s.files "current.json" with
  | none => none
  | some c => if c.name = "" then none else some c.name

/-- clearCurrentConfig (configManager.ts lines 262-269): overwrites
`current.json` with an object holding an empty name. -/
def clearCurrentConfig (s : Store) : Store :=
  writeFile s "current.json" ⟨"", none⟩

/-- deleteConfig (configManager.ts lines 202-225): returns `false` when
the file at `getConfigFilePath name` is missing; otherwise unlinks it,
then re-reads the pointer and clears it when it still names the deleted
record, and returns `true`. -/
def deleteConfig (s : Store) (name : String) : Bool × Store :=
  if (lookupKey s.files (getConfigFilePath name)).isNone then (false, s)
  else
    let s1 := removeFile s (getConfigFilePath name)
    let s2 := if getCurrentConfig s1 = some name then clearCurrentConfig s1 else s1
    (true, s2)

/-- setCurrentConfig (configManager.ts lines 246-260): returns `false`
when `configExists name` fails, otherwise writes the pointer object to
`current.json` and returns `true`. -/
def setCurrentConfig (s : Store) (name : String) : Bool × Store :=
  if ¬ configExists s name then (false, s)
  else (true, writeFile s "current.json" ⟨name, none⟩)

/-- getCurrentConfigData (configManager.ts lines 238-244): the record the
pointer names, or `null` when no pointer is set or the record is
missing. -/
def getCurrentConfigData (s : Store) : Option ConfigFile :=
  match getCurrentConfig s with
  | none => none
  | some n => getConfig s n

/-- Observable outcome of the `config current` command
(`showCurrentConfig`). -/
inductive CurrentCmdResult where
  | noActive : CurrentCmdResult
  | errorNotFound : String → CurrentCmdResult
  | shown : ConfigFile → CurrentCmdResult
  deriving DecidableEq, Repr

/-- showCurrentConfig (commands/config current handler, unnamed part_000
lines 28-51): warns when no configuration is active, reports an error when
the active name has no record, and otherwise displays the record. -/
def showCurrentConfig (s : Store) : CurrentCmdResult :=
  match getCurrentConfig s with
  | none => CurrentCmdResult.noActive
  | some n =>
    match getConfig s n with
    | none => CurrentCmdResult.errorNotFound n
    | some c => CurrentCmdResult.shown c

/-- Exponential backoff delay computed before the retry that follows the
given failed attempt: `min(baseDelay * 2 ** (attempt - 1), maxDelay)`
(timeout.ts line 88). -/
def backoffDelay (baseDelay maxDelay attempt : Nat) : Nat :=
  min (baseDelay * 2 ^ (attempt - 1)) maxDelay

/-- Observable trace of one `retry` run: the final outcome (the error is
`none` exactly when the loop never ran and `lastError` stayed undefined),
the `(attempt, error)` arguments of the `onRetry` invocations in order,
the delays awaited between attempts in order, and the attempt numbers at
which `fn` was invoked. -/
structure RetryTrace (E A : Type) where
  outcome : Except (Option E) A
  onRetryCalls : List (Nat × E)
  delays : List Nat
  tried : List Nat

/-- Loop body of retry (timeout.ts lines 71-93).  The function under retry
is modelled by `results`, giving the outcome of each 1-indexed attempt;
`attempt` and `lastError` are the loop variables.  Each iteration invokes
the function once; on failure at the last attempt the loop breaks and the
last error is thrown, otherwise `onRetry` is called and the backoff delay
is awaited before the next iteration. -/
def retryAux {E A : Type} (results : Nat → Except E A)
    (maxAttempts baseDelay maxDelay attempt : Nat) (lastError : Option E) :
    RetryTrace E A :=
  if _h : maxAttempts < attempt then
    ⟨Except.error lastError, [], [], []⟩
  else
    match results attempt with
    | Except.ok v => ⟨Except.ok v, [], [], [attempt]⟩
    | Except.error e =>
      if attempt = maxAttempts then
        ⟨Except.error (some e), [], [], [attempt]⟩
      else
        let t := retryAux results maxAttempts baseDelay maxDelay (attempt + 1) (some e)
        ⟨t.outcome, (attempt, e) :: t.onRetryCalls,
          backoffDelay baseDelay maxDelay attempt :: t.delays, attempt :: t.tried⟩
termination_by maxAttempts + 1 - attempt
decreasing_by omega

/-- retry (timeout.ts lines 60-94): starts the loop at attempt 1 with
`lastError` undefined. -/
def retry {E A : Type} (results : Nat → Except E A)
    (maxAttempts baseDelay maxDelay : Nat) : RetryTrace E A :=
  retryAux results maxAttempts baseDelay maxDelay 1 none

/-- Example store: fresh pointer file plus one record named `dev`. -/
def storeWithDev : Store :=
  ⟨[("current.json", ⟨"", none⟩), ("dev.json", ⟨"dev", some "v1"⟩)]⟩

/-- A name of 51 characters, for the validation witnesses. -/
def longName : String :=
  "aaaaaaaaaaaaaaaaaaaaaaaaaaaaaaaaaaaaaaaaaaaaaaaaaaa"

theorem lookupKey_updateAssoc_self (l : List (String × ConfigFile)) (k : String)
    (c : ConfigFile) : lookupKey (updateAssoc l k c) k = some c := by
  induction l with
  | nil => simp [lookupKey, updateAssoc]
  | cons p rest ih =>
    obtain ⟨k', c'⟩ := p
    by_cases h : k' = k
    · simp [lookupKey, updateAssoc, h]
    · simp [lookupKey, updateAssoc, h, ih]

theorem lookupKey_removeKey_self (l : List (String × ConfigFile)) (k : String) :
    lookupKey (removeKey l k) k = none := by
  induction l with
  | nil => simp [lookupKey, removeKey]
  | cons p rest ih =>
    obtain ⟨k', c'⟩ := p
    by_cases h : k' = k
    · simp [removeKey, h, ih]
    · simp [removeKey, lookupKey, h, ih]

theorem lookupKey_removeKey_ne (l : List (String × ConfigFile)) (k : String)
    (k2 : String) (h : k2 ≠ k) :
    lookupKey (removeKey l k) k2 = lookupKey l k2 := by
  induction l with
  | nil => simp [removeKey]
  | cons p rest ih =>
    obtain ⟨k', c'⟩ := p
    by_cases hk : k' = k
    · subst hk
      simp [removeKey, lookupKey, Ne.symm h, ih]
    · simp only [removeKey, if_neg hk, lookupKey]
      by_cases hk2 : k' = k2
      · simp [hk2]
      · simp [hk2, ih]

/-- C1: a record that satisfies the schema round-trips: `saveConfig`
succeeds, and a subsequent `getConfig` on the record's name returns an
equal record. -/
theorem saveConfig_getConfig_roundtrip (s : Store) (r : ConfigFile)
    (hv : appConfigSchemaOk r = true) :
    (saveConfig s r).1 = true ∧ getConfig (saveConfig s r).2 r.name = some r := by
  refine ⟨by simp [saveConfig, hv], ?_⟩
  simp [saveConfig, hv, getConfig, writeFile, lookupKey_updateAssoc_self]

/-- Closed instance of the C1 round-trip at a concrete record. -/
theorem saveConfig_getConfig_roundtrip_witness :
    (saveConfig freshStore ⟨"dev", some "d"⟩).1 = true ∧
    getConfig (saveConfig freshStore ⟨"dev", some "d"⟩).2 "dev" =
      some ⟨"dev", some "d"⟩ :=
  saveConfig_getConfig_roundtrip freshStore ⟨"dev", some "d"⟩ (by decide)

/-- C2: when the active pointer names `n` and `deleteConfig n` succeeds,
the pointer is cleared afterwards. -/
theorem deleteConfig_clears_active (s : Store) (n : String)
    (hcur : getCurrentConfig s = some n)
    (hdel : (deleteConfig s n).1 = true) :
    getCurrentConfig (deleteConfig s n).2 = none := by
  rcases hl : lookupKey s.files (getConfigFilePath n) with _ | c
  · simp [deleteConfig, hl] at hdel
  · by_cases hn : getConfigFilePath n = "current.json"
    · have h1 : lookupKey (removeKey s.files (getConfigFilePath n)) "current.json" = none := by
        rw [hn]
        exact lookupKey_removeKey_self _ _
      simp [deleteConfig, hl, removeFile, getCurrentConfig, h1]
    · have h1 : lookupKey (removeKey s.files (getConfigFilePath n)) "current.json" =
          lookupKey s.files "current.json" :=
        lookupKey_removeKey_ne _ _ _ (fun hc => hn hc.symm)
      have h2 : getCurrentConfig (removeFile s (getConfigFilePath n)) = some n := by
        rw [getCurrentConfig] at hcur ⊢
        rw [removeFile]
        rw [h1]
        exact hcur
      have h3 : (deleteConfig s n).2 =
          clearCurrentConfig (removeFile s (getConfigFilePath n)) := by
        simp [deleteConfig, hl, h2]
      rw [h3]
      simp [clearCurrentConfig, getCurrentConfig, writeFile, lookupKey_updateAssoc_self]

/-- Closed instance of C2: deleting the active record `dev` clears the
pointer. -/
theorem deleteConfig_clears_active_witness :
    getCurrentConfig
      (deleteConfig
        ⟨[("current.json", ⟨"dev", none⟩), ("dev.json", ⟨"dev", some "v1"⟩)]⟩ "dev").2 =
      none :=
  deleteConfig_clears_active
    ⟨[("current.json", ⟨"dev", none⟩), ("dev.json", ⟨"dev", some "v1"⟩)]⟩
    "dev" rfl rfl

/-- C3: `saveConfig` validates before writing: an invalid record yields
`false` with the store untouched, and a schema-valid record whose name
already names a stored file is written anyway (no collision check),
overwriting the stored record. -/
theorem saveConfig_validates_and_overwrites (s : Store) (r : ConfigFile) :
    (appConfigSchemaOk r = false → saveConfig s r = (false, s)) ∧
    (appConfigSchemaOk r = true → configExists s r.name = true →
      (saveConfig s r).1 = true ∧ getConfig (saveConfig s r).2 r.name = some r) := by
  constructor
  · intro hv
    simp [saveConfig, hv]
  · intro hv _
    refine ⟨by simp [saveConfig, hv], ?_⟩
    simp [saveConfig, hv, getConfig, writeFile, lookupKey_updateAssoc_self]

/-- Closed instance of C3: an empty-named record is rejected with the
store untouched, and re-saving the existing name `dev` succeeds and
overwrites. -/
theorem saveConfig_validates_and_overwrites_witness :
    saveConfig freshStore ⟨"", none⟩ = (false, freshStore) ∧
    ((saveConfig storeWithDev ⟨"dev", some "v2"⟩).1 = true ∧
      getConfig (saveConfig storeWithDev ⟨"dev", some "v2"⟩).2 "dev" =
        some ⟨"dev", some "v2"⟩) :=
  ⟨(saveConfig_validates_and_overwrites freshStore ⟨"", none⟩).1 rfl,
   (saveConfig_validates_and_overwrites storeWithDev ⟨"dev", some "v2"⟩).2 rfl rfl⟩

/-- C7: the name rule of the schema: a name longer than 50 characters
fails validation, the empty name fails validation, and a record whose name
has length 1 to 50 passes. -/
theorem appConfigSchema_name_rule (c : ConfigFile) :
    (50 < c.name.length → appConfigSchemaOk c = false) ∧
    (c.name = "" → appConfigSchemaOk c = false) ∧
    (1 ≤ c.name.length → c.name.length ≤ 50 → appConfigSchemaOk c = true) := by
  refine ⟨fun h => ?_, fun h => ?_, fun h1 h2 => ?_⟩
  · simp only [appConfigSchemaOk, Bool.and_eq_false_iff, decide_eq_false_iff_not]
    right
    omega
  · simp [appConfigSchemaOk, h]
  · simp [appConfigSchemaOk, h1, h2]

/-- Closed instance of C7 at a 51-character name, the empty name, and a
3-character name. -/
theorem appConfigSchema_name_rule_witness :
    appConfigSchemaOk ⟨longName, none⟩ = false ∧
    appConfigSchemaOk ⟨"", none⟩ = false ∧
    appConfigSchemaOk ⟨"dev", none⟩ = true :=
  ⟨(appConfigSchema_name_rule ⟨longName, none⟩).1 (by decide),
   (appConfigSchema_name_rule ⟨"", none⟩).2.1 rfl,
   (appConfigSchema_name_rule ⟨"dev", none⟩).2.2 (by decide) (by decide)⟩

/-- C8: `setCurrentConfig` reports not-found exactly when no file for the
name exists, and in that case it leaves the store, in particular the
active-pointer file, unchanged. -/
theorem setCurrentConfig_not_found_iff (s : Store) (n : String) :
    ((setCurrentConfig s n).1 = false ↔ configExists s n = false) ∧
    (configExists s n = false → (setCurrentConfig s n).2 = s) := by
  constructor
  · by_cases h : configExists s n <;> simp [setCurrentConfig, h]
  · intro h
    simp [setCurrentConfig, h]

/-- Closed instance of C8: activating the missing name `ghost` on a fresh
store reports not-found and leaves the store unchanged. -/
theorem setCurrentConfig_not_found_witness :
    ((setCurrentConfig freshStore "ghost").1 = false ↔
      configExists freshStore "ghost" = false) ∧
    (setCurrentConfig freshStore "ghost").2 = freshStore :=
  ⟨(setCurrentConfig_not_found_iff freshStore "ghost").1,
   (setCurrentConfig_not_found_iff freshStore "ghost").2 rfl⟩

/-- C9: a dangling active pointer (the pointer file names `n`, but no file
`n` exists) is tolerated: `getCurrentConfigData` returns `none` and the
`config current` command reports an error rather than crashing. -/
theorem dangling_pointer_tolerated (s : Store) (n : String) (d : Option String)
    (hptr : lookupKey s.files "current.json" = some ⟨n, d⟩)
    (hne : n ≠ "")
    (hmiss : lookupKey s.files (getConfigFilePath n) = none) :
    getCurrentConfigData s = none ∧
    showCurrentConfig s = CurrentCmdResult.errorNotFound n := by
  have hcur : getCurrentConfig s = some n := by
    simp [getCurrentConfig, hptr, hne]
  have hget : getConfig s n = none := by
    simp [getConfig, hmiss]
  exact ⟨by simp [getCurrentConfigData, hcur, hget],
         by simp [showCurrentConfig, hcur, hget]⟩

/-- Closed instance of C9 on a store whose pointer names the missing
record `ghost`. -/
theorem dangling_pointer_tolerated_witness :
    getCurrentConfigData ⟨[("current.json", ⟨"ghost", none⟩)]⟩ = none ∧
    showCurrentConfig ⟨[("current.json", ⟨"ghost", none⟩)]⟩ =
      CurrentCmdResult.errorNotFound "ghost" :=
  dangling_pointer_tolerated ⟨[("current.json", ⟨"ghost", none⟩)]⟩ "ghost" none
    rfl (by decide) rfl

theorem retryAux_spec {E A : Type} (results : Nat → Except E A)
    (maxAttempts baseDelay maxDelay : Nat) (errAt : Nat → E) :
    ∀ d a le, 1 ≤ a → a + d ≤ maxAttempts →
      (∀ k, a ≤ k → k < a + d → results k = Except.error (errAt k)) →
      ((results (a + d)).isOk = true ∨ a + d = maxAttempts) →
      retryAux results maxAttempts baseDelay maxDelay a le =
        ⟨match results (a + d) with
          | Except.ok v => Except.ok v
          | Except.error e => Except.error (some e),
         (List.range' a d).map (fun k => (k, errAt k)),
         (List.range' a d).map (fun k => backoffDelay baseDelay maxDelay k),
         List.range' a (d + 1)⟩ := by
  intro d
  induction d with
  | zero =>
    intro a le ha hle hfail hstop
    have hnlt : ¬ maxAttempts < a := by omega
    rw [retryAux]
    simp only [Nat.add_zero] at hstop ⊢
    rcases hres : results a with e | v
    · have hmax : a = maxAttempts := by
        rcases hstop with h | h
        · rw [hres] at h
          simp [Except.isOk, Except.toBool] at h
        · exact h
      simp [hnlt, hres, hmax, List.range']
    · simp [hnlt, hres, List.range']
  | succ d ih =>
    intro a le ha hle hfail hstop
    have hnlt : ¬ maxAttempts < a := by omega
    have hne : a ≠ maxAttempts := by omega
    have hres : results a = Except.error (errAt a) :=
      hfail a (Nat.le_refl a) (by omega)
    have harg : a + 1 + d = a + (d + 1) := by omega
    have ih' := ih (a + 1) (some (errAt a)) (by omega) (by omega)
      (fun k hk1 hk2 => hfail k (by omega) (by omega))
      (by rw [harg]; exact hstop)
    rw [retryAux]
    simp only [hnlt, dite_false, hres, hne, if_false, ih', harg]
    simp [List.range']

/-- C4: when the outcome of `retry` (first success, or final failure with
`n = maxAttempts`) arrives on attempt `n`, the `onRetry` callback was
invoked exactly `n - 1` times, and the delay awaited before attempt
`k + 1` equals `min(baseDelay * 2 ** (k - 1), maxDelay)` for each
`k = 1 .. n - 1`. -/
theorem retry_onRetry_count_and_delays {E A : Type} (results : Nat → Except E A)
    (errAt : Nat → E) (maxAttempts baseDelay maxDelay n : Nat)
    (h1 : 1 ≤ n) (h2 : n ≤ maxAttempts)
    (hfail : ∀ k, 1 ≤ k → k < n → results k = Except.error (errAt k))
    (hstop : (results n).isOk = true ∨ n = maxAttempts) :
    (retry results maxAttempts baseDelay maxDelay).onRetryCalls.length = n - 1 ∧
    (retry results maxAttempts baseDelay maxDelay).delays =
      (List.range' 1 (n - 1)).map (fun k => min (baseDelay * 2 ^ (k - 1)) maxDelay) := by
  have hd : 1 + (n - 1) = n := by omega
  have h := retryAux_spec results maxAttempts baseDelay maxDelay errAt (n - 1) 1 none
    (Nat.le_refl 1) (by omega)
    (fun k hk1 hk2 => hfail k hk1 (by omega))
    (by rw [hd]; exact hstop)
  rw [retry, h]
  constructor
  · simp
  · simp [backoffDelay]

/-- Closed instance of C4: two failures then success on attempt 3, with
base delay 100 capped at 150. -/
theorem retry_onRetry_count_and_delays_witness :
    (retry (fun k => if k < 3 then Except.error "boom" else Except.ok 7) 5 100 150).onRetryCalls.length =
      3 - 1 ∧
    (retry (fun k => if k < 3 then Except.error "boom" else Except.ok 7) 5 100 150).delays =
      (List.range' 1 (3 - 1)).map (fun k => min (100 * 2 ^ (k - 1)) 150) :=
  retry_onRetry_count_and_delays (fun k => if k < 3 then Except.error "boom" else Except.ok 7)
    (fun _ => "boom") 5 100 150 3 (by omega) (by omega)
    (fun k hk1 hk2 => by interval_cases k <;> rfl)
    (Or.inl rfl)

/-- C6: when every attempt fails, `retry` invokes the operation on each
attempt 1 through `maxAttempts` (so `maxAttempts` total invocations) and
then surfaces the error of the last attempt. -/
theorem retry_exhausts_attempts_with_last_error {E A : Type}
    (results : Nat → Except E A) (errAt : Nat → E)
    (maxAttempts baseDelay maxDelay : Nat) (h1 : 1 ≤ maxAttempts)
    (hfail : ∀ k, 1 ≤ k → k ≤ maxAttempts → results k = Except.error (errAt k)) :
    (retry results maxAttempts baseDelay maxDelay).outcome =
      Except.error (some (errAt maxAttempts)) ∧
    (retry results maxAttempts baseDelay maxDelay).tried =
      List.range' 1 maxAttempts := by
  have hd : 1 + (maxAttempts - 1) = maxAttempts := by omega
  have h := retryAux_spec results maxAttempts baseDelay maxDelay errAt
    (maxAttempts - 1) 1 none (Nat.le_refl 1) (by omega)
    (fun k hk1 hk2 => hfail k hk1 (by omega))
    (Or.inr hd)
  rw [retry, h]
  constructor
  · rw [hd, hfail maxAttempts h1 (Nat.le_refl maxAttempts)]
  · rw [show maxAttempts - 1 + 1 = maxAttempts by omega]

/-- Closed instance of C6: three attempts, all failing. -/
theorem retry_exhausts_attempts_with_last_error_witness :
    (retry (fun _ => (Except.error "boom" : Except String Nat)) 3 100 150).outcome =
      Except.error (some "boom") ∧
    (retry (fun _ => (Except.error "boom" : Except String Nat)) 3 100 150).tried =
      List.range' 1 3 :=
  retry_exhausts_attempts_with_last_error (fun _ => Except.error "boom")
    (fun _ => "boom") 3 100 150 (by omega) (fun k _ _ => rfl)
